import Mathlib

/-!
Verification model of the go-fdo-client onboarding orchestrator
(`cmd/onboard.go`): the rendezvous/transfer walker `transferOwnership`,
the address resolver, the FSIM `NameToPath` sanitizers of
`transferOwnership2`, and the virtual filesystem `fsVar`.

Paths are Unix paths (`filepath.Separator = '/'`).  Go strings are
modelled as Lean `String`s; since `'/'`, `'.'` and all path
metacharacters are single-byte ASCII, Go's byte-level scanning coincides
with character-level scanning.
-/

namespace Onboard

/-- Split a character list at every occurrence of `sep`, keeping empty
segments, as Go's `strings.Split` does (`strings.Split "" sep = [""]`). -/
def splitChar (sep : Char) : List Char → List (List Char)
  | [] => [[]]
  | c :: rest =>
    match splitChar sep rest with
    | [] => if c = sep then [[], []] else [[c]]
    | s :: ss => if c = sep then [] :: s :: ss else (c :: s) :: ss

/-- Go `strings.Split(s, "/")`. -/
def splitOnSlash (s : String) : List String :=
  (splitChar '/' s.data).map (fun cs => String.mk cs)

/-- Go `strings.Join(elems, "/")`. -/
def joinWithSlash : List String → String
  | [] => ""
  | [s] => s
  | s :: rest => s ++ "/" ++ joinWithSlash rest

/-- One step of `filepath.Clean`'s element processing: push a path
element onto the (reversed) output stack, resolving `".."` against it.
`rooted` records whether the path began with `'/'` (a rooted path drops
leading `".."` elements; a relative path keeps them). -/
def pushSeg (rooted : Bool) (acc : List String) (s : String) : List String :=
  if s = ".." then
    match acc with
    | [] => if rooted then [] else [".."]
    | t :: rest => if t = ".." then ".." :: t :: rest else rest
  else s :: acc

/-- Resolve `".."` elements of an already `"."`-free element list, as in
`filepath.Clean`. -/
def resolveDots (rooted : Bool) (segs : List String) : List String :=
  (segs.foldl (pushSeg rooted) []).reverse

/-- Go `path/filepath.Clean` on Unix: empty path becomes `"."`; multiple
slashes collapse; `"."` elements are dropped; `".."` elements consume
the preceding element (or are dropped at the root / kept at the front of
a relative path). -/
def goClean (path : String) : String :=
  match path.data with
  | [] => "."
  | c :: _ =>
    let rooted := c = '/'
    let segs := (splitOnSlash path).filter (fun s => s ≠ "" ∧ s ≠ ".")
    let out := resolveDots rooted segs
    if rooted then "/" ++ joinWithSlash out
    else if out.isEmpty then "." else joinWithSlash out

/-- Go `filepath.IsAbs` on Unix: the path starts with `'/'`. -/
def goIsAbs (path : String) : Bool :=
  match path.data with
  | [] => false
  | c :: _ => c = '/'

/-- Go `filepath.Join` on Unix: drop leading empty elements, join the
rest with `'/'` and `Clean` the result; all-empty input yields `""`. -/
def goJoinList (elems : List String) : String :=
  match elems.dropWhile (fun e => e = "") with
  | [] => ""
  | rest => goClean (joinWithSlash rest)

/-- Go `filepath.Join(a, b)`. -/
def goJoin (a b : String) : String := goJoinList [a, b]

/-- Go `filepath.Base` on Unix: strip trailing slashes, then keep
everything after the last slash; empty input gives `"."`, an all-slash
input gives `"/"`. -/
def goBase (path : String) : String :=
  if path = "" then "."
  else
    let stripped := path.data.reverse.dropWhile (fun c => c = '/')
    let base := stripped.takeWhile (fun c => c ≠ '/')
    if base.isEmpty then "/" else String.mk base.reverse

/-- Go `filepath.Dir` on Unix: the path up to (excluding) the final
element, `Clean`ed; `"."` when the path contains no slash. -/
def goDir (path : String) : String :=
  let keep := path.data.reverse.dropWhile (fun c => c ≠ '/')
  goClean (String.mk keep.reverse)

/-- Go `io/fs.ValidPath`: `"."`, or a nonempty `'/'`-separated list of
elements, none of which is empty, `"."`, or `".."`.  (Go additionally
requires valid UTF-8, which every Lean `String` is.) -/
def goValidPath (name : String) : Bool :=
  name = "." ∨ (splitOnSlash name).all (fun e => e ≠ "" ∧ e ≠ "." ∧ e ≠ "..")

/-- The `NameToPath` callback installed by `transferOwnership2` for both
the `fsim.Download` module (`dir = dlDir`, onboard.go:261-267) and the
`fsim.Wget` module (`dir = wgetDir`, onboard.go:296-302): clean the
received name; if the cleaned name is not absolute, join it under the
configured directory, otherwise join only its base name. -/
def nameToPath (dir name : String) : String :=
  let cleanName := goClean name
  if ¬ goIsAbs cleanName then goJoin dir cleanName
  else goJoin dir (goBase cleanName)

/-- Drop the leading `".."` and `"."` elements of a split path
(onboard.go:409-411). -/
def dropLeadingDots : List String → List String
  | [] => []
  | p :: ps => if p = ".." ∨ p = "." then dropLeadingDots ps else p :: ps

/-- `pathToName` (onboard.go:403-416): the name of a directory or file is
its cleaned path, if absolute.  A relative path is cleaned, split, and
stripped of leading `".."`/`"."` elements; if nothing remains and `abs`
is nonempty, the base name of `abs` is used. -/
def pathToName (path abs : String) : String :=
  let cleaned := goClean path
  if goIsAbs path then cleaned
  else
    let pathparts := dropLeadingDots (splitOnSlash cleaned)
    if pathparts.isEmpty ∧ abs ≠ "" then goJoinList [goBase abs]
    else goJoinList pathparts

/-- The virtual filesystem mapping `fsVar` (logical name ↦ absolute real
path); a Go `map[string]string` is modelled as an association list with
distinct keys. -/
def FsVar := List (String × String)

/-- Go map lookup `files[k]`. -/
def fsLookup (files : List (String × String)) (k : String) : Option String :=
  match files with
  | [] => none
  | (k', v) :: rest => if k' = k then some v else fsLookup rest k

/-- Result of `fsVar.Open` (onboard.go:369-397): either a real path is
handed to `os.Open`, or a `fs.PathError` carrying `fs.ErrInvalid` or
`fs.ErrNotExist` is returned. -/
inductive OpenResult
  | opened (real : String)
  | errInvalid
  | errNotExist
  deriving Repr, DecidableEq

/-- The ancestor-directory walk of `fsVar.Open` (onboard.go:387-391):
`for dir := filepath.Dir(name); dir != "/" && dir != "."; dir =
filepath.Dir(dir)`, looking each `dir` up in the mapping.  The Go loop
shortens `dir` every iteration, so any `fuel ≥ length of the starting
path` makes the model total and faithful. -/
def ancestorLookup (files : List (String × String)) : Nat → String → Option String
  | 0, _ => none
  | fuel + 1, dir =>
    if dir = "/" ∨ dir = "." then none
    else
      match fsLookup files dir with
      | some abs => some abs
      | none => ancestorLookup files fuel (goDir dir)

/-- The directories visited by the ancestor walk, in visiting order. -/
def ancestorChain : Nat → String → List String
  | 0, _ => []
  | fuel + 1, dir =>
    if dir = "/" ∨ dir = "." then []
    else dir :: ancestorChain fuel (goDir dir)

/-- `fsVar.Open` (onboard.go:369-397): reject paths failing
`fs.ValidPath`; with the root key `"/"` registered, open the cleaned
path directly (passthrough); otherwise look up the canonical name
`pathToName path ""`, then walk its ancestor directories; finally fail
with not-found. -/
def fsOpen (files : List (String × String)) (path : String) : OpenResult :=
  if ¬ goValidPath path then .errInvalid
  else if (fsLookup files "/").isSome then .opened (goClean path)
  else
    let name := pathToName path ""
    match fsLookup files name with
    | some abs => .opened (goClean abs)
    | none =>
      match ancestorLookup files (path.length + 1) (goDir name) with
      | some abs => .opened (goClean abs)
      | none => .errNotExist

/-- One rendezvous directive, as produced by
`protocol.ParseDeviceRvInfo` (onboard.go:158): a bypass flag, an ordered
URL list (`url.String()` values), and an inter-directive delay.
`delay : Nat` is the `time.Duration` in nanoseconds (`Delay != 0` is the
only test the code makes). -/
structure Directive where
  bypass : Bool
  urls : List String
  delay : Nat
  deriving Repr, DecidableEq

/-- Transport protocol of a `protocol.RvTO2Addr` (onboard.go:203-210):
only `protocol.HTTPTransport` and `protocol.HTTPSTransport` are handled;
every other value falls to `default: continue`. -/
inductive Transport
  | http
  | https
  | other
  deriving Repr, DecidableEq

/-- One owner address from the TO1 redirection blob
(`to1d.Payload.Val.RV`, onboard.go:196).  `ip` holds the rendering
`to2Addr.IPAddress.String()`; `port = 0` means the optional port is
absent (`to2Addr.Port` is `uint16`). -/
structure TransferAddress where
  dns : Option String
  ip : Option String
  transport : Transport
  port : Nat
  deriving Repr, DecidableEq

/-- Go `net.JoinHostPort`: bracket the host when it contains a colon
(IPv6 literal). -/
def joinHostPort (host port : String) : String :=
  if host.data.contains ':' then "[" ++ host ++ "]:" ++ port
  else host ++ ":" ++ port

/-- The scheme prefix and default port chosen by the `switch` at
onboard.go:203-210; `none` for unsupported transports. -/
def schemePort : Transport → Option (String × String)
  | .http => some ("http://", "80")
  | .https => some ("https://", "443")
  | .other => none

/-- The address resolver (onboard.go:196-226), for one owner address:
skip it when both DNS and IP are absent; pick scheme and default port
from the transport (skipping unsupported ones); override the port when
the explicit port is nonzero; emit a DNS URL when the DNS name is
present and resolvable, then an IP URL when the IP is present and
syntactically valid.  `resolvable` and `validIP` model the environment
calls `isResolvableDNS` (`net.LookupHost`) and `isValidIP`
(`net.ParseIP`). -/
def resolveAddr (resolvable validIP : String → Bool) (a : TransferAddress) :
    List String :=
  if a.dns = none ∧ a.ip = none then []
  else
    match schemePort a.transport with
    | none => []
    | some (scheme, defPort) =>
      let port := if a.port ≠ 0 then toString a.port else defPort
      let dnsURLs :=
        match a.dns with
        | some h => if resolvable h then [scheme ++ joinHostPort h port] else []
        | none => []
      let ipURLs :=
        match a.ip with
        | some h => if validIP h then [scheme ++ joinHostPort h port] else []
        | none => []
      dnsURLs ++ ipURLs

/-- All URLs derived from a redirection blob's owner-address list, in
order (the loop at onboard.go:196-226). -/
def resolveBlob (resolvable validIP : String → Bool)
    (addrs : List TransferAddress) : List String :=
  addrs.flatMap (resolveAddr resolvable validIP)

/-- The pre-collection of bypass directives' URLs into `to2URLs`
(onboard.go:157-166), written as the source's append loop. -/
def bypassURLs (directives : List Directive) : List String :=
  directives.foldl (fun acc d => if d.bypass then acc ++ d.urls else acc) []

/-- A scan trying an attempt on each element in order, recording the
attempts made and stopping at the first success — the shape of both the
inner TO1 URL loop (onboard.go:176-184) and the TO2 loop
(onboard.go:238-243). -/
def scanFirst (f : α → Option β) : List α → List α × Option β
  | [] => ([], none)
  | x :: xs =>
    match f x with
    | some b => ([x], some b)
    | none =>
      let r := scanFirst f xs
      (x :: r.1, r.2)

/-- Result of the labelled TO1 loop (onboard.go:170-194): the
`return nil` taken when the cancellation signal wins the `select` at a
nonzero delay; a blob from a successful TO1; or exhaustion with `to1d`
still nil. -/
inductive TO1Result (β : Type)
  | cancelled
  | blob (b : β)
  | noBlob
  deriving Repr, DecidableEq

/-- The TO1 loop (onboard.go:170-194): bypass directives are skipped;
each non-bypass directive's URLs are attempted in order via `fdo.TO1`
(`break TO1` on success, skipping the delay); after an unsuccessful
directive with nonzero delay the `select` races `ctx.Done()` against
`time.After` — with a positive delay and an already-fired signal the
`ctx.Done()` arm is taken and the whole function returns nil.
`cancelled` says whether the signal has already fired (it never fires
mid-run in this model).  Returns the attempted URLs in order, and the
outcome. -/
def to1Loop (to1 : String → Option β) (cancelled : Bool) :
    List Directive → List String × TO1Result β
  | [] => ([], .noBlob)
  | d :: rest =>
    if d.bypass then to1Loop to1 cancelled rest
    else
      let r := scanFirst to1 d.urls
      match r.2 with
      | some b => (r.1, .blob b)
      | none =>
        if d.delay ≠ 0 ∧ cancelled then (r.1, .cancelled)
        else
          let r2 := to1Loop to1 cancelled rest
          (r.1 ++ r2.1, r2.2)

/-- Environment of one `transferOwnership` run: the outcome of `fdo.TO1`
per URL (`some blob` on success), the outcome of `transferOwnership2`
(i.e. `fdo.TO2`) per base URL (`some cred` when a non-nil credential is
returned), the DNS/IP validity oracles, the already-fired state of the
cancellation signal, and the `rvOnly` flag. -/
structure WalkerEnv (β γ : Type) where
  to1 : String → Option β
  to2 : String → Option γ
  resolvable : String → Bool
  validIP : String → Bool
  cancelled : Bool
  rvOnly : Bool

/-- Observable trace of one `transferOwnership` run (onboard.go:156-246):
TO1 attempts in order, the `to2URLs` candidate list at the point the TO2
stage is reached (the bypass part alone when the run is cut short), TO2
attempts in order, and the returned credential (`none` = nil). -/
structure RunResult (γ : Type) where
  to1Attempts : List String
  candidates : List String
  to2Attempts : List String
  result : Option γ
  deriving Repr, DecidableEq

/-- `transferOwnership` (onboard.go:156-246), with the blob type
`β := List TransferAddress` generalised: collect bypass URLs, run the
TO1 loop, on cancellation return nil, otherwise append the
blob-derived URLs, return nil if `rvOnly`, and finally scan the
candidates with `transferOwnership2`, returning the first non-nil
credential. -/
def runTransferOwnership (env : WalkerEnv (List TransferAddress) γ)
    (ds : List Directive) : RunResult γ :=
  let base := bypassURLs ds
  let t1 := to1Loop env.to1 env.cancelled ds
  match t1.2 with
  | .cancelled => ⟨t1.1, base, [], none⟩
  | .blob b =>
    let cands := base ++ resolveBlob env.resolvable env.validIP b
    if env.rvOnly then ⟨t1.1, cands, [], none⟩
    else
      let t2 := scanFirst env.to2 cands
      ⟨t1.1, cands, t2.1, t2.2⟩
  | .noBlob =>
    if env.rvOnly then ⟨t1.1, base, [], none⟩
    else
      let t2 := scanFirst env.to2 base
      ⟨t1.1, base, t2.1, t2.2⟩

/-- Outcome of `doOnboard` after `transferOwnership` returns
(onboard.go:143-153): with `rvOnly` it returns nil at once; a nil
credential prints "Credential not updated …" and returns nil (reported,
not an error); a non-nil credential prints the completion message and is
committed via `updateCred`. -/
inductive FinalOutcome (γ : Type)
  | rvOnlyDone
  | notUpdated
  | completed (c : γ)
  deriving Repr, DecidableEq

/-- The tail of `doOnboard` (onboard.go:143-153). -/
def doOnboardOutcome (rvOnly : Bool) (newDC : Option γ) : FinalOutcome γ :=
  if rvOnly then .rvOnlyDone
  else
    match newDC with
    | none => .notUpdated
    | some c => .completed c

/-- The credential in storage after `doOnboard`: only the
`completed` outcome commits a new credential (`updateCred`,
onboard.go:153). -/
def storedAfter (old : γ) : FinalOutcome γ → γ
  | .completed c => c
  | _ => old

/-- All URLs of non-bypass directives, in directive order — the URLs the
TO1 loop can ever attempt. -/
def nonBypassURLs (ds : List Directive) : List String :=
  (ds.filter (fun d => ¬ d.bypass)).flatMap (fun d => d.urls)

/-- The prefix of a list up to and including its first element
satisfying `p` (the whole list when none does). -/
def takeThrough (p : α → Bool) : List α → List α
  | [] => []
  | x :: xs => if p x then [x] else x :: takeThrough p xs

/-- The first success of `f` along a list. -/
def firstHit (f : α → Option β) : List α → Option β
  | [] => none
  | x :: xs =>
    match f x with
    | some b => some b
    | none => firstHit f xs

/-! ### Generic facts about the scan/first-success combinators -/

theorem firstHit_none_iff (f : α → Option β) (xs : List α) :
    firstHit f xs = none ↔ ∀ x ∈ xs, f x = none := by
  induction xs with
  | nil => simp [firstHit]
  | cons x xs ih =>
    cases hfx : f x with
    | some b => simp [firstHit, hfx]
    | none => simp [firstHit, hfx, ih]

theorem takeThrough_all_false (p : α → Bool) (xs : List α)
    (h : ∀ x ∈ xs, p x = false) : takeThrough p xs = xs := by
  induction xs with
  | nil => rfl
  | cons x xs ih =>
    have hx := h x (by simp)
    simp [takeThrough, hx, ih (fun y hy => h y (by simp [hy]))]

theorem takeThrough_extend (p : α → Bool) (xs : List α) :
    ∃ t, xs = takeThrough p xs ++ t := by
  induction xs with
  | nil => exact ⟨[], rfl⟩
  | cons x xs ih =>
    by_cases hx : p x
    · exact ⟨xs, by simp [takeThrough, hx]⟩
    · obtain ⟨t, ht⟩ := ih
      refine ⟨t, ?_⟩
      simpa [takeThrough, hx] using ht

theorem scanFirst_eq (f : α → Option β) (xs : List α) :
    scanFirst f xs = (takeThrough (fun x => (f x).isSome) xs, firstHit f xs) := by
  induction xs with
  | nil => rfl
  | cons x xs ih =>
    cases hfx : f x with
    | some b => simp [scanFirst, takeThrough, firstHit, hfx]
    | none => simp [scanFirst, takeThrough, firstHit, hfx, ih]

theorem firstHit_append (f : α → Option β) (xs ys : List α) :
    firstHit f (xs ++ ys) =
      match firstHit f xs with
      | some b => some b
      | none => firstHit f ys := by
  induction xs with
  | nil => simp [firstHit]
  | cons x xs ih =>
    cases hfx : f x with
    | some b => simp [firstHit, hfx]
    | none => simp [firstHit, hfx, ih]

theorem takeThrough_append_none (p : α → Bool) (xs ys : List α)
    (h : ∀ x ∈ xs, p x = false) :
    takeThrough p (xs ++ ys) = xs ++ takeThrough p ys := by
  induction xs with
  | nil => simp
  | cons x xs ih =>
    have hx := h x (by simp)
    simp [takeThrough, hx, ih (fun y hy => h y (by simp [hy]))]

theorem takeThrough_append_hit (p : α → Bool) (xs ys : List α)
    (h : ¬ ∀ x ∈ xs, p x = false) :
    takeThrough p (xs ++ ys) = takeThrough p xs := by
  induction xs with
  | nil => exact absurd (by simp) h
  | cons x xs ih =>
    by_cases hx : p x
    · simp [takeThrough, hx]
    · have : ¬ ∀ y ∈ xs, p y = false := by
        intro hall
        exact h (by
          intro y hy
          rcases List.mem_cons.mp hy with rfl | hy'
          · simpa using hx
          · exact hall y hy')
      simp [takeThrough, hx, ih this]

/-! ### The bypass pre-collection and the TO1 loop -/

theorem bypassURLs_eq (ds : List Directive) :
    bypassURLs ds = (ds.filter (fun d => d.bypass)).flatMap (fun d => d.urls) := by
  suffices h : ∀ acc : List String,
      ds.foldl (fun acc d => if d.bypass then acc ++ d.urls else acc) acc
        = acc ++ (ds.filter (fun d => d.bypass)).flatMap (fun d => d.urls) by
    simpa [bypassURLs] using h []
  induction ds with
  | nil => intro acc; simp
  | cons d ds ih =>
    intro acc
    by_cases hd : d.bypass <;>
      simp [List.filter_cons, hd, ih]

theorem nonBypassURLs_cons (d : Directive) (ds : List Directive) :
    nonBypassURLs (d :: ds) =
      if d.bypass then nonBypassURLs ds else d.urls ++ nonBypassURLs ds := by
  by_cases hd : d.bypass <;> simp [nonBypassURLs, List.filter_cons, hd]

theorem nonBypassURLs_all (ds : List Directive)
    (h : ∀ d ∈ ds, d.bypass = false) :
    nonBypassURLs ds = ds.flatMap (fun d => d.urls) := by
  induction ds with
  | nil => rfl
  | cons d ds ih =>
    have hd := h d (by simp)
    simp [nonBypassURLs_cons, hd, ih (fun e he => h e (by simp [he]))]

/-- With an uncancelled (never-firing) signal, the TO1 loop attempts
exactly the non-bypass URLs up through the first success, and its
outcome is the first successful blob. -/
theorem to1Loop_uncancelled (to1 : String → Option β) (ds : List Directive) :
    to1Loop to1 false ds =
      (takeThrough (fun u => (to1 u).isSome) (nonBypassURLs ds),
       match firstHit to1 (nonBypassURLs ds) with
       | some b => TO1Result.blob b
       | none => TO1Result.noBlob) := by
  induction ds with
  | nil => simp [to1Loop, nonBypassURLs, takeThrough, firstHit]
  | cons d ds ih =>
    by_cases hd : d.bypass
    · simpa [to1Loop, hd, nonBypassURLs_cons] using ih
    · cases hfh : firstHit to1 d.urls with
      | some b =>
        have hhit : ¬ ∀ u ∈ d.urls, (fun u => (to1 u).isSome) u = false := by
          intro hall
          have : firstHit to1 d.urls = none := by
            rw [firstHit_none_iff]
            intro u hu
            have h2 := hall u hu
            cases hcase : to1 u with
            | none => rfl
            | some c => simp [hcase] at h2
          simp [this] at hfh
        simp [to1Loop, hd, scanFirst_eq, hfh, nonBypassURLs_cons,
          takeThrough_append_hit _ _ _ hhit, firstHit_append, hfh]
      | none =>
        have hnone : ∀ u ∈ d.urls, to1 u = none := (firstHit_none_iff _ _).mp hfh
        have hfalse : ∀ u ∈ d.urls, (fun u => (to1 u).isSome) u = false := by
          intro u hu; simp [hnone u hu]
        have htt := takeThrough_all_false (fun u => (to1 u).isSome) d.urls hfalse
        simp [to1Loop, hd, scanFirst_eq, hfh, nonBypassURLs_cons, ih,
          takeThrough_append_none _ _ _ hfalse, firstHit_append, htt]

/-- With an already-fired cancellation signal, if all TO1 attempts up
through a non-bypass directive `d` with nonzero delay fail, the loop
takes the `ctx.Done()` arm at some delay point no later than `d`:
it returns the cancellation outcome and attempts no URL beyond
`pre ++ [d]`. -/
theorem to1Loop_cancelled_of (to1 : String → Option β)
    (pre : List Directive) (d : Directive) (post : List Directive)
    (hb : d.bypass = false) (hdel : d.delay ≠ 0)
    (hfail : ∀ u ∈ nonBypassURLs (pre ++ [d]), to1 u = none) :
    (to1Loop to1 true (pre ++ d :: post)).2 = TO1Result.cancelled ∧
    ∀ u ∈ (to1Loop to1 true (pre ++ d :: post)).1, u ∈ nonBypassURLs (pre ++ [d]) := by
  induction pre with
  | nil =>
    have hfail' : ∀ u ∈ d.urls, to1 u = none := by
      intro u hu
      exact hfail u (by simp [nonBypassURLs_cons, hb, hu, nonBypassURLs])
    have hfh : firstHit to1 d.urls = none := (firstHit_none_iff _ _).mpr hfail'
    have hfalse : ∀ u ∈ d.urls, (fun u => (to1 u).isSome) u = false := by
      intro u hu; simp [hfail' u hu]
    constructor
    · simp [to1Loop, hb, scanFirst_eq, hfh, hdel]
    · intro u hu
      simp only [List.nil_append, to1Loop, hb, Bool.false_eq_true, if_false,
        scanFirst_eq, hfh, hdel, and_true, ne_eq, not_false_iff, if_true] at hu
      have : u ∈ d.urls := by
        have := takeThrough_all_false (fun u => (to1 u).isSome) d.urls hfalse
        simpa [this] using hu
      simp [nonBypassURLs_cons, hb, this, nonBypassURLs]
  | cons p pre ih =>
    have hsub : ∀ u ∈ nonBypassURLs (pre ++ [d]), to1 u = none := by
      intro u hu
      apply hfail
      by_cases hp : p.bypass <;>
        simp [List.cons_append, nonBypassURLs_cons, hp, hu]
    by_cases hp : p.bypass
    · have := ih hsub
      constructor
      · simpa [List.cons_append, to1Loop, hp] using this.1
      · intro u hu
        have hu' : u ∈ (to1Loop to1 true (pre ++ d :: post)).1 := by
          simpa [List.cons_append, to1Loop, hp] using hu
        have := this.2 u hu'
        simpa [List.cons_append, nonBypassURLs_cons, hp] using this
    · have hpfail : ∀ u ∈ p.urls, to1 u = none := by
        intro u hu
        apply hfail
        simp [List.cons_append, nonBypassURLs_cons, hp, hu]
      have hfh : firstHit to1 p.urls = none := (firstHit_none_iff _ _).mpr hpfail
      have hfalse : ∀ u ∈ p.urls, (fun u => (to1 u).isSome) u = false := by
        intro u hu; simp [hpfail u hu]
      have htt : takeThrough (fun u => (to1 u).isSome) p.urls = p.urls :=
        takeThrough_all_false _ _ hfalse
      by_cases hpd : p.delay = 0
      · have := ih hsub
        constructor
        · simpa [List.cons_append, to1Loop, hp, scanFirst_eq, hfh, hpd] using this.1
        · intro u hu
          simp only [List.cons_append, to1Loop, hp, Bool.false_eq_true, if_false,
            scanFirst_eq, hfh, hpd, ne_eq, not_true_eq_false, false_and, if_false,
            List.mem_append, htt] at hu
          rcases hu with hu | hu
          · simp [nonBypassURLs_cons, hp, hu]
          · have := this.2 u hu
            simp only [List.cons_append, nonBypassURLs_cons, hp, Bool.false_eq_true,
              if_false, List.mem_append]
            exact Or.inr (by simpa using this)
      · constructor
        · simp [List.cons_append, to1Loop, hp, scanFirst_eq, hfh, hpd]
        · intro u hu
          simp only [List.cons_append, to1Loop, hp, Bool.false_eq_true, if_false,
            scanFirst_eq, hfh, hpd, ne_eq, not_false_iff, true_and, if_true, htt] at hu
          simp [List.cons_append, nonBypassURLs_cons, hp, hu]

/-! ### Virtual filesystem lookup lemmas -/

theorem fsLookup_eq_none (files : List (String × String)) (k : String)
    (h : ∀ p ∈ files, p.1 ≠ k) : fsLookup files k = none := by
  induction files with
  | nil => rfl
  | cons q files ih =>
    obtain ⟨k', v⟩ := q
    have hk := h (k', v) (by simp)
    simp only [fsLookup]
    rw [if_neg (by simpa using hk)]
    exact ih (fun p hp => h p (by simp [hp]))

theorem ancestorLookup_eq_none (files : List (String × String))
    (fuel : Nat) (dir : String)
    (h : ∀ p ∈ files, p.1 ∉ ancestorChain fuel dir) :
    ancestorLookup files fuel dir = none := by
  induction fuel generalizing dir with
  | zero => rfl
  | succ fuel ih =>
    by_cases hdir : dir = "/" ∨ dir = "."
    · simp [ancestorLookup, hdir]
    · have hchain : ancestorChain (fuel + 1) dir = dir :: ancestorChain fuel (goDir dir) := by
        simp [ancestorChain, hdir]
      have hlk : fsLookup files dir = none := by
        apply fsLookup_eq_none
        intro p hp
        have := h p hp
        rw [hchain] at this
        simp only [List.mem_cons, not_or] at this
        exact this.1
      have hrec : ancestorLookup files fuel (goDir dir) = none := by
        apply ih
        intro p hp
        have := h p hp
        rw [hchain] at this
        simp only [List.mem_cons, not_or] at this
        exact this.2
      simp [ancestorLookup, hdir, hlk, hrec]

/-- In every branch of `transferOwnership`, the candidate list is the
bypass pre-collection followed by blob-derived URLs. -/
theorem candidates_decomp (env : WalkerEnv (List TransferAddress) γ)
    (ds : List Directive) :
    (runTransferOwnership env ds).candidates =
      bypassURLs ds ++
        (match (to1Loop env.to1 env.cancelled ds).2 with
         | TO1Result.blob b => resolveBlob env.resolvable env.validIP b
         | _ => ([] : List String)) := by
  cases h : (to1Loop env.to1 env.cancelled ds).2 with
  | cancelled => simp [runTransferOwnership, h]
  | blob b =>
    by_cases hrv : env.rvOnly <;> simp [runTransferOwnership, h, hrv]
  | noBlob =>
    by_cases hrv : env.rvOnly <;> simp [runTransferOwnership, h, hrv]

/-! ### Claim theorems -/

/-- C4: for every directive list and environment, the transfer-candidate
list consists of the bypass directives' URLs — in directive order, as
given by filtering the directive list — followed by the URLs derived
from the redirection blob (empty when no blob was obtained); the bypass
segment is the same for every environment, i.e. it is collected
independently of (and before) any rendezvous attempt. -/
theorem c4_bypass_urls_first (γ : Type) (env : WalkerEnv (List TransferAddress) γ)
    (ds : List Directive) :
    (∃ blobDerived,
      (runTransferOwnership env ds).candidates =
        ((ds.filter (fun d => d.bypass)).flatMap (fun d => d.urls)) ++ blobDerived ∧
      blobDerived =
        (match (to1Loop env.to1 env.cancelled ds).2 with
         | TO1Result.blob b => resolveBlob env.resolvable env.validIP b
         | _ => ([] : List String))) ∧
    ∀ env' : WalkerEnv (List TransferAddress) γ,
      (runTransferOwnership env' ds).candidates.take
          (((ds.filter (fun d => d.bypass)).flatMap (fun d => d.urls)).length) =
        (ds.filter (fun d => d.bypass)).flatMap (fun d => d.urls) := by
  constructor
  · refine ⟨_, ?_, rfl⟩
    rw [candidates_decomp, bypassURLs_eq]
  · intro env'
    rw [candidates_decomp, bypassURLs_eq]
    exact List.take_left _ _

/-- C5: with every directive non-bypass and the cancellation signal not
fired, the TO1 loop attempts exactly the URLs of the directives in list
order up to and including the first successful one (all of them when
none succeeds), each URL occurrence at most once, and its outcome is the
blob of the first success. -/
theorem c5_to1_in_order_first_success (β : Type) (to1 : String → Option β)
    (ds : List Directive) (h : ∀ d ∈ ds, d.bypass = false) :
    (to1Loop to1 false ds).1 =
      takeThrough (fun u => (to1 u).isSome) (ds.flatMap (fun d => d.urls)) ∧
    (to1Loop to1 false ds).2 =
      (match firstHit to1 (ds.flatMap (fun d => d.urls)) with
       | some b => TO1Result.blob b
       | none => TO1Result.noBlob) ∧
    ∀ u : String,
      ((to1Loop to1 false ds).1.count u) ≤ ((ds.flatMap (fun d => d.urls)).count u) := by
  have hn := nonBypassURLs_all ds h
  have hloop := to1Loop_uncancelled to1 ds
  rw [hn] at hloop
  refine ⟨by rw [hloop], by rw [hloop], ?_⟩
  intro u
  rw [hloop]
  obtain ⟨t, ht⟩ :=
    takeThrough_extend (fun u => (to1 u).isSome) (ds.flatMap (fun d => d.urls))
  conv_rhs => rw [ht]
  simp [List.count_append]

/-- C7: the TO2 loop attempts candidates in list order, stopping at the
first one that returns a non-nil credential, which becomes its result;
in particular, when the list splits as `pre ++ c :: post` with all of
`pre` failing and `c` succeeding, exactly `pre ++ [c]` is attempted, the
result is `to2 c`, and nothing of `post` is attempted; through
`transferOwnership`, the returned credential is the first success over
the assembled candidate list. -/
theorem c7_to2_first_success (γ : Type) (to2 : String → Option γ)
    (cands : List String) :
    scanFirst to2 cands =
      (takeThrough (fun u => (to2 u).isSome) cands, firstHit to2 cands) ∧
    (∀ (pre : List String) (c : String) (post : List String),
      cands = pre ++ c :: post → (∀ u ∈ pre, to2 u = none) → (to2 c).isSome →
        scanFirst to2 cands = (pre ++ [c], to2 c)) ∧
    ∀ (env : WalkerEnv (List TransferAddress) γ) (ds : List Directive),
      env.to2 = to2 → env.rvOnly = false → env.cancelled = false →
      (runTransferOwnership env ds).to2Attempts =
        takeThrough (fun u => (to2 u).isSome) (runTransferOwnership env ds).candidates ∧
      (runTransferOwnership env ds).result =
        firstHit to2 (runTransferOwnership env ds).candidates := by
  refine ⟨scanFirst_eq to2 cands, ?_, ?_⟩
  · intro pre c post hcands hpre hc
    subst hcands
    rw [scanFirst_eq]
    obtain ⟨b, hb⟩ := Option.isSome_iff_exists.mp hc
    have hfalse : ∀ u ∈ pre, (fun u => (to2 u).isSome) u = false := by
      intro u hu; simp [hpre u hu]
    have hfhpre : firstHit to2 pre = none := (firstHit_none_iff _ _).mpr hpre
    simp only [Prod.mk.injEq]
    constructor
    · rw [takeThrough_append_none _ _ _ hfalse]
      simp [takeThrough, hb]
    · rw [firstHit_append]
      simp [hfhpre, firstHit, hb]
  · intro env ds hto2 hrv hcanc
    have hloop := to1Loop_uncancelled env.to1 ds
    rw [← hcanc] at hloop
    cases hfh : firstHit env.to1 (nonBypassURLs ds) with
    | some b =>
      have h2 : (to1Loop env.to1 env.cancelled ds).2 = TO1Result.blob b := by
        rw [hloop, hfh]
      have hrun : runTransferOwnership env ds =
          ⟨(to1Loop env.to1 env.cancelled ds).1,
           bypassURLs ds ++ resolveBlob env.resolvable env.validIP b,
           (scanFirst env.to2 (bypassURLs ds ++ resolveBlob env.resolvable env.validIP b)).1,
           (scanFirst env.to2 (bypassURLs ds ++ resolveBlob env.resolvable env.validIP b)).2⟩ := by
        simp [runTransferOwnership, h2, hrv]
      rw [hrun, hto2] at *
      exact ⟨by rw [scanFirst_eq], by rw [scanFirst_eq]⟩
    | none =>
      have h2 : (to1Loop env.to1 env.cancelled ds).2 = TO1Result.noBlob := by
        rw [hloop, hfh]
      have hrun : runTransferOwnership env ds =
          ⟨(to1Loop env.to1 env.cancelled ds).1, bypassURLs ds,
           (scanFirst env.to2 (bypassURLs ds)).1,
           (scanFirst env.to2 (bypassURLs ds)).2⟩ := by
        simp [runTransferOwnership, h2, hrv]
      rw [hrun, hto2] at *
      exact ⟨by rw [scanFirst_eq], by rw [scanFirst_eq]⟩

/-- Concrete environment with an already-fired cancellation signal in
which every rendezvous attempt succeeds at once. -/
def c3Env : WalkerEnv (List TransferAddress) Nat where
  to1 := fun _ => some [⟨some "owner", none, Transport.http, 0⟩]
  to2 := fun _ => some 1
  resolvable := fun _ => true
  validIP := fun _ => true
  cancelled := true
  rvOnly := false

/-- C3 is false as stated: with the one-directive list
`[{bypass := false, urls := ["rv1"], delay := 5}]` — a directive with a
positive delay — and the cancellation signal already fired, the walker
does not return immediately: it performs the rendezvous attempt on
`"rv1"`, and on its success even proceeds to a transfer attempt and
returns a credential, because cancellation is only observed at the
delay suspension point, which a successful attempt skips. -/
theorem c3_counterexample_cancelled_still_attempts :
    (runTransferOwnership c3Env [⟨false, ["rv1"], 5⟩]).to1Attempts = ["rv1"] ∧
    (runTransferOwnership c3Env [⟨false, ["rv1"], 5⟩]).result = some 1 ∧
    (runTransferOwnership c3Env [⟨false, ["rv1"], 5⟩]).to2Attempts =
      ["http://owner:80"] := by
  decide

/-- C3 (amended): with the cancellation signal already fired, whenever a
non-bypass directive `d` with nonzero delay is reached with every
rendezvous attempt up to and including `d` failing, the walker returns
no result, performs no transfer attempt, and attempts no URL beyond the
directives up to `d` — cancellation is observed at the delay suspension
point, not before the current directive's rendezvous attempts. -/
theorem c3_cancelled_at_delay_aborts (γ : Type)
    (env : WalkerEnv (List TransferAddress) γ)
    (pre : List Directive) (d : Directive) (post : List Directive)
    (hc : env.cancelled = true)
    (hb : d.bypass = false) (hdel : d.delay ≠ 0)
    (hfail : ∀ u ∈ nonBypassURLs (pre ++ [d]), env.to1 u = none) :
    (runTransferOwnership env (pre ++ d :: post)).result = none ∧
    (runTransferOwnership env (pre ++ d :: post)).to2Attempts = [] ∧
    ∀ u ∈ (runTransferOwnership env (pre ++ d :: post)).to1Attempts,
      u ∈ nonBypassURLs (pre ++ [d]) := by
  obtain ⟨hcanc, htrace⟩ := to1Loop_cancelled_of env.to1 pre d post hb hdel hfail
  rw [← hc] at hcanc htrace
  have hrun : runTransferOwnership env (pre ++ d :: post) =
      ⟨(to1Loop env.to1 env.cancelled (pre ++ d :: post)).1,
       bypassURLs (pre ++ d :: post), [], none⟩ := by
    simp [runTransferOwnership, hcanc]
  rw [hrun]
  exact ⟨rfl, rfl, htrace⟩

/-- A concrete already-cancelled environment in which every rendezvous
attempt fails. -/
def c3WitnessEnv : WalkerEnv (List TransferAddress) Nat where
  to1 := fun _ => none
  to2 := fun _ => some 1
  resolvable := fun _ => true
  validIP := fun _ => true
  cancelled := true
  rvOnly := false

/-- The delayed directive of the C3 witness run. -/
def c3WitnessDir : Directive := ⟨false, ["rv1"], 5⟩

/-- C3 witness: a concrete already-cancelled run in which the first
directive's URL fails, reaching its positive delay: the walker aborts
with no result, no transfer attempts, and without touching the second
directive. -/
theorem c3_witness :
    (c3WitnessEnv.cancelled = true ∧
     c3WitnessDir.bypass = false ∧
     c3WitnessDir.delay ≠ 0 ∧
     (∀ u ∈ nonBypassURLs ([] ++ [c3WitnessDir]), c3WitnessEnv.to1 u = none)) ∧
    ((runTransferOwnership c3WitnessEnv
        ([] ++ c3WitnessDir :: [⟨false, ["rv2"], 0⟩])).result = none ∧
     (runTransferOwnership c3WitnessEnv
        ([] ++ c3WitnessDir :: [⟨false, ["rv2"], 0⟩])).to2Attempts = [] ∧
     ∀ u ∈ (runTransferOwnership c3WitnessEnv
        ([] ++ c3WitnessDir :: [⟨false, ["rv2"], 0⟩])).to1Attempts,
        u ∈ nonBypassURLs ([] ++ [c3WitnessDir])) :=
  ⟨⟨rfl, rfl, by decide, fun u _ => rfl⟩,
   c3_cancelled_at_delay_aborts Nat c3WitnessEnv
     [] c3WitnessDir [⟨false, ["rv2"], 0⟩]
     rfl rfl (by decide) (fun u _ => rfl)⟩

/-- C8: when `rvOnly` is off and every assembled transfer candidate
fails (the TO2 attempt returns nil on each), `transferOwnership` returns
nil; `doOnboard` then reports "Credential not updated" and returns a nil
error rather than failing, and the stored credential is left unchanged
(no `updateCred` commit). -/
theorem c8_exhaustion_preserves_credential (γ : Type)
    (env : WalkerEnv (List TransferAddress) γ) (ds : List Directive) (old : γ)
    (hrv : env.rvOnly = false)
    (hfail : ∀ u ∈ (runTransferOwnership env ds).candidates, env.to2 u = none) :
    (runTransferOwnership env ds).result = none ∧
    doOnboardOutcome env.rvOnly (runTransferOwnership env ds).result =
      FinalOutcome.notUpdated ∧
    storedAfter old
        (doOnboardOutcome env.rvOnly (runTransferOwnership env ds).result) = old := by
  have hmain : (runTransferOwnership env ds).result = none := by
    cases h : (to1Loop env.to1 env.cancelled ds).2 with
    | cancelled => simp [runTransferOwnership, h]
    | blob b =>
      have hc : (runTransferOwnership env ds).candidates =
          bypassURLs ds ++ resolveBlob env.resolvable env.validIP b := by
        simp [runTransferOwnership, h, hrv]
      have hfh : firstHit env.to2
          (bypassURLs ds ++ resolveBlob env.resolvable env.validIP b) = none := by
        apply (firstHit_none_iff _ _).mpr
        intro u hu
        exact hfail u (by rw [hc]; exact hu)
      simp [runTransferOwnership, h, hrv, scanFirst_eq, hfh]
    | noBlob =>
      have hc : (runTransferOwnership env ds).candidates = bypassURLs ds := by
        simp [runTransferOwnership, h, hrv]
      have hfh : firstHit env.to2 (bypassURLs ds) = none := by
        apply (firstHit_none_iff _ _).mpr
        intro u hu
        exact hfail u (by rw [hc]; exact hu)
      simp [runTransferOwnership, h, hrv, scanFirst_eq, hfh]
  refine ⟨hmain, ?_, ?_⟩ <;> simp [hmain, doOnboardOutcome, storedAfter, hrv]

/-- A concrete uncancelled environment in which TO1 succeeds but every
transfer attempt fails. -/
def c8Env : WalkerEnv (List TransferAddress) Nat where
  to1 := fun _ => some [⟨some "owner", none, Transport.http, 0⟩]
  to2 := fun _ => none
  resolvable := fun _ => true
  validIP := fun _ => true
  cancelled := false
  rvOnly := false

/-- The directives of the C8 witness run: one bypass directive and one
rendezvous directive. -/
def c8Dirs : List Directive :=
  [⟨true, ["http://bypass:80"], 0⟩, ⟨false, ["rv1"], 0⟩]

/-- C8 witness: a concrete run — one bypass candidate and one
blob-derived candidate, every transfer attempt failing — leaves a
previously stored credential `7` unchanged and reports the non-fatal
"not updated" outcome. -/
theorem c8_witness :
    (c8Env.rvOnly = false ∧
     ∀ u ∈ (runTransferOwnership c8Env c8Dirs).candidates, c8Env.to2 u = none) ∧
    ((runTransferOwnership c8Env c8Dirs).result = none ∧
     doOnboardOutcome c8Env.rvOnly (runTransferOwnership c8Env c8Dirs).result =
       FinalOutcome.notUpdated ∧
     storedAfter 7
        (doOnboardOutcome c8Env.rvOnly
          (runTransferOwnership c8Env c8Dirs).result) = 7) :=
  ⟨⟨rfl, fun _u _ => rfl⟩,
   c8_exhaustion_preserves_credential Nat c8Env c8Dirs 7 rfl (fun _u _ => rfl)⟩

/-- C6: for a transfer address carrying both a resolvable DNS name and a
syntactically valid IP, with transport HTTP or HTTPS, the resolver emits
exactly two URLs — the DNS-based one first, the IP-based one second —
sharing the transport's scheme and the effective port (the explicit port
when nonzero, else the scheme default 80 / 443). -/
theorem c6_resolver_two_urls (resolvable validIP : String → Bool)
    (a : TransferAddress) (dn ip : String)
    (hdns : a.dns = some dn) (hip : a.ip = some ip)
    (hres : resolvable dn = true) (hval : validIP ip = true)
    (htr : a.transport = Transport.http ∨ a.transport = Transport.https) :
    ∃ sch dflt, schemePort a.transport = some (sch, dflt) ∧
      resolveAddr resolvable validIP a =
        [sch ++ joinHostPort dn (if a.port ≠ 0 then toString a.port else dflt),
         sch ++ joinHostPort ip (if a.port ≠ 0 then toString a.port else dflt)] := by
  rcases htr with htr | htr
  · exact ⟨"http://", "80", by rw [htr]; rfl,
      by simp [resolveAddr, hdns, hip, hres, hval, htr, schemePort]⟩
  · exact ⟨"https://", "443", by rw [htr]; rfl,
      by simp [resolveAddr, hdns, hip, hres, hval, htr, schemePort]⟩

/-- C6 witness: a concrete HTTPS address with explicit port 8443,
resolvable DNS name and valid IP, yields exactly the DNS URL followed by
the IP URL on port 8443. -/
theorem c6_witness :
    ∃ sch dflt,
      schemePort (⟨some "dev.example", some "10.0.0.5", Transport.https, 8443⟩ :
          TransferAddress).transport = some (sch, dflt) ∧
      resolveAddr (fun _ => true) (fun _ => true)
          ⟨some "dev.example", some "10.0.0.5", Transport.https, 8443⟩ =
        [sch ++ joinHostPort "dev.example"
          (if (⟨some "dev.example", some "10.0.0.5", Transport.https, 8443⟩ :
              TransferAddress).port ≠ 0
           then toString (⟨some "dev.example", some "10.0.0.5", Transport.https, 8443⟩ :
              TransferAddress).port else dflt),
         sch ++ joinHostPort "10.0.0.5"
          (if (⟨some "dev.example", some "10.0.0.5", Transport.https, 8443⟩ :
              TransferAddress).port ≠ 0
           then toString (⟨some "dev.example", some "10.0.0.5", Transport.https, 8443⟩ :
              TransferAddress).port else dflt)] :=
  c6_resolver_two_urls (fun _ => true) (fun _ => true)
    ⟨some "dev.example", some "10.0.0.5", Transport.https, 8443⟩
    "dev.example" "10.0.0.5" rfl rfl rfl rfl (Or.inr rfl)

/-- C10: an owner address with neither DNS name nor IP contributes no
candidate URL, and the remaining addresses of the blob are still
processed: resolving a list around such an address equals resolving the
list with the address removed. -/
theorem c10_null_address_skipped (resolvable validIP : String → Bool)
    (a : TransferAddress) (pre post : List TransferAddress)
    (hdns : a.dns = none) (hip : a.ip = none) :
    resolveAddr resolvable validIP a = [] ∧
    resolveBlob resolvable validIP (pre ++ a :: post) =
      resolveBlob resolvable validIP pre ++ resolveBlob resolvable validIP post := by
  have h1 : resolveAddr resolvable validIP a = [] := by
    simp [resolveAddr, hdns, hip]
  exact ⟨h1, by simp [resolveBlob, h1]⟩

/-- C10 witness: a malformed address between two well-formed ones is
skipped while both neighbours contribute their URLs. -/
theorem c10_witness :
    (⟨none, none, Transport.http, 0⟩ : TransferAddress).dns = none ∧
    (⟨none, none, Transport.http, 0⟩ : TransferAddress).ip = none ∧
    resolveAddr (fun _ => true) (fun _ => true) ⟨none, none, Transport.http, 0⟩ = [] ∧
    resolveBlob (fun _ => true) (fun _ => true)
        ([⟨some "a", none, Transport.http, 0⟩] ++
          (⟨none, none, Transport.http, 0⟩ : TransferAddress) ::
            [⟨some "b", none, Transport.http, 0⟩]) =
      resolveBlob (fun _ => true) (fun _ => true) [⟨some "a", none, Transport.http, 0⟩] ++
        resolveBlob (fun _ => true) (fun _ => true) [⟨some "b", none, Transport.http, 0⟩] :=
  ⟨rfl, rfl,
   (c10_null_address_skipped (fun _ => true) (fun _ => true)
      ⟨none, none, Transport.http, 0⟩
      [⟨some "a", none, Transport.http, 0⟩] [⟨some "b", none, Transport.http, 0⟩]
      rfl rfl).1,
   (c10_null_address_skipped (fun _ => true) (fun _ => true)
      ⟨none, none, Transport.http, 0⟩
      [⟨some "a", none, Transport.http, 0⟩] [⟨some "b", none, Transport.http, 0⟩]
      rfl rfl).2⟩

/-- C1: the claim's containment property fails on the code.  For the
configured directory `/data/downloads` and the received name
`"../../etc/passwd"`, `NameToPath` cleans the name to
`"../../etc/passwd"` (relative, so the absolute-name branch is not
taken) and `filepath.Join` then resolves the leading `".."` segments
against the directory, yielding `/etc/passwd` — outside the configured
directory, and not the `/data/downloads/passwd` the claim requires. -/
theorem c1_nameToPath_escapes_configured_dir :
    nameToPath "/data/downloads" "../../etc/passwd" = "/etc/passwd" ∧
    ("/etc/passwd" : String) ≠ "/data/downloads/passwd" := by
  exact ⟨by decide, by decide⟩

/-- C2 is false as stated: `"/etc/shadow"` is an absolute path, so with
no root passthrough registered (here: the empty mapping) `Open` rejects
it at the `fs.ValidPath` check with the invalid-path error
`fs.ErrInvalid`, not with the not-found error the claim requires. -/
theorem c2_counterexample_shadow_invalid :
    fsOpen ([] : List (String × String)) "/etc/shadow" = OpenResult.errInvalid ∧
    OpenResult.errInvalid ≠ OpenResult.errNotExist := by
  exact ⟨by decide, by decide⟩

/-- C2 (amended): a request for `"/etc/shadow"` fails for every mapping
— but with the invalid-path error, since absolute paths are rejected by
the well-formedness check before any lookup; a well-formed (relative)
path whose canonical name matches no registered name and none of whose
ancestor directories is registered fails with the not-found error,
provided the root passthrough `"/"` is not registered. -/
theorem c2_open_unmatched_not_found :
    (∀ files : List (String × String),
      fsOpen files "/etc/shadow" = OpenResult.errInvalid) ∧
    ∀ (files : List (String × String)) (path : String),
      goValidPath path = true →
      (∀ p ∈ files, p.1 ≠ "/") →
      (∀ p ∈ files, p.1 ≠ pathToName path "") →
      (∀ p ∈ files,
        p.1 ∉ ancestorChain (path.length + 1) (goDir (pathToName path ""))) →
      fsOpen files path = OpenResult.errNotExist := by
  constructor
  · intro files
    have hv : goValidPath "/etc/shadow" = false := by decide
    simp [fsOpen, hv]
  · intro files path hvalid hroot hname hanc
    have h1 : fsLookup files "/" = none := fsLookup_eq_none _ _ hroot
    have h2 : fsLookup files (pathToName path "") = none := fsLookup_eq_none _ _ hname
    have h3 : ancestorLookup files (path.length + 1) (goDir (pathToName path "")) =
        none := ancestorLookup_eq_none _ _ _ hanc
    simp [fsOpen, hvalid, h1, h2, h3]

/-- C2 witness: the mapping registering only `"docs"` rejects
`"/etc/shadow"` as invalid and reports not-found for the unmatched
well-formed path `"pics/cat.png"`. -/
theorem c2_witness :
    (goValidPath "pics/cat.png" = true ∧
     (∀ p ∈ [("docs", "/home/user/docs")], p.1 ≠ "/") ∧
     (∀ p ∈ [("docs", "/home/user/docs")], p.1 ≠ pathToName "pics/cat.png" "") ∧
     (∀ p ∈ [("docs", "/home/user/docs")],
        p.1 ∉ ancestorChain ("pics/cat.png".length + 1)
          (goDir (pathToName "pics/cat.png" "")))) ∧
    fsOpen [("docs", "/home/user/docs")] "/etc/shadow" = OpenResult.errInvalid ∧
    fsOpen [("docs", "/home/user/docs")] "pics/cat.png" = OpenResult.errNotExist :=
  ⟨⟨by decide, by decide, by decide, by decide⟩,
   c2_open_unmatched_not_found.1 [("docs", "/home/user/docs")],
   c2_open_unmatched_not_found.2 [("docs", "/home/user/docs")] "pics/cat.png"
     (by decide) (by decide) (by decide) (by decide)⟩

/-- C9: `fsVar.Open` tests `fs.ValidPath` before consulting the mapping,
so every ill-formed path — in particular the absolute `"/etc/shadow"`
and the `".."`-leading `"../creds"` — is answered with the invalid-path
error for every mapping, including ones that register the root
passthrough key `"/"`. -/
theorem c9_open_validates_before_passthrough :
    goValidPath "/etc/shadow" = false ∧
    goValidPath "../creds" = false ∧
    ∀ (files : List (String × String)) (path : String),
      goValidPath path = false → fsOpen files path = OpenResult.errInvalid := by
  refine ⟨by decide, by decide, ?_⟩
  intro files path h
  simp [fsOpen, h]

/-- C9 witness: even with the root passthrough `"/"` registered, the
absolute path `"/etc/shadow"` and the traversal path `"../creds"` are
rejected as invalid. -/
theorem c9_witness :
    (goValidPath "/etc/shadow" = false ∧ goValidPath "../creds" = false) ∧
    fsOpen [("/", "/")] "/etc/shadow" = OpenResult.errInvalid ∧
    fsOpen [("/", "/")] "../creds" = OpenResult.errInvalid :=
  ⟨⟨by decide, by decide⟩,
   c9_open_validates_before_passthrough.2.2 [("/", "/")] "/etc/shadow" (by decide),
   c9_open_validates_before_passthrough.2.2 [("/", "/")] "../creds" (by decide)⟩

/-- The TO1 oracle of the C5 witness run: only `"u2"` succeeds. -/
def c5Oracle : String → Option Nat :=
  fun u => if u = "u2" then some 9 else none

/-- The directives of the C5 witness run, all non-bypass. -/
def c5Dirs : List Directive :=
  [⟨false, ["u1", "u2"], 0⟩, ⟨false, ["u3"], 7⟩]

/-- C5 witness: on a concrete all-non-bypass directive list whose second
URL succeeds, the loop attempts exactly `["u1", "u2"]` in order and
stops with the blob of `"u2"`, never reaching `"u3"`. -/
theorem c5_witness :
    (∀ d ∈ c5Dirs, d.bypass = false) ∧
    ((to1Loop c5Oracle false c5Dirs).1 =
      takeThrough (fun u => (c5Oracle u).isSome) (c5Dirs.flatMap (fun d => d.urls)) ∧
     (to1Loop c5Oracle false c5Dirs).2 =
      (match firstHit c5Oracle (c5Dirs.flatMap (fun d => d.urls)) with
       | some b => TO1Result.blob b
       | none => TO1Result.noBlob) ∧
     ∀ u : String,
      ((to1Loop c5Oracle false c5Dirs).1.count u) ≤
        ((c5Dirs.flatMap (fun d => d.urls)).count u)) :=
  ⟨by decide, c5_to1_in_order_first_success Nat c5Oracle c5Dirs (by decide)⟩

/-- The TO2 oracle of the C7 witness run: only `"c2"` succeeds. -/
def c7Oracle : String → Option Nat :=
  fun u => if u = "c2" then some 5 else none

/-- C7 witness: on the concrete candidate list `["c1", "c2", "c3"]`
whose second element succeeds, the transfer loop attempts exactly
`["c1", "c2"]` and returns credential `5`, never attempting `"c3"`. -/
theorem c7_witness :
    (["c1", "c2", "c3"] = ["c1"] ++ "c2" :: ["c3"] ∧
     (∀ u ∈ ["c1"], c7Oracle u = none) ∧
     (c7Oracle "c2").isSome = true) ∧
    scanFirst c7Oracle ["c1", "c2", "c3"] = (["c1"] ++ ["c2"], c7Oracle "c2") :=
  ⟨⟨rfl, by decide, by decide⟩,
   (c7_to2_first_success Nat c7Oracle ["c1", "c2", "c3"]).2.1
     ["c1"] "c2" ["c3"] rfl (by decide) (by decide)⟩

end Onboard

